import Mathlib

/-!
Shallow embedding of the airhead BraTS segmentation pipeline:
the result analysis script, the epoch-end metric aggregation of the
Lightning model wrapper, the BraTS data module (path resolution,
K-fold splitting, stage setup, data loaders) and the global parameter
setter of the helper module.  Numeric metric values are modelled as
rationals, Python dictionaries as association lists, filesystem
directories as explicit listings, and fallible operations as Option
or Except values.
-/

/-- Boolean test that the string pre is a prefix of s, modelling the
Python str.startswith method on the underlying character lists. -/
def pyStartsWith (s pre : String) : Bool :=
  pre.toList.isPrefixOf s.toList

/-- Boolean substring search on character lists; sub occurs somewhere
inside s.  This models a glob pattern of the shape star-sub-star, which
matches a filename exactly when sub occurs in it as a substring. -/
def charsHasSub : List Char → List Char → Bool
  | [], sub => sub.isEmpty
  | c :: t, sub => sub.isPrefixOf (c :: t) || charsHasSub t sub

/-- Boolean test that sub occurs in s as a substring, on strings. -/
def pyHasSub (s sub : String) : Bool :=
  charsHasSub s.toList sub.toList

/-- Path concatenation, modelling os.path.join for two components. -/
def pyJoin (a b : String) : String := a ++ "/" ++ b

/-! ## helper.py: global parameters and set_params -/

/-- Record of the three module-level globals of helper.py. -/
structure HelperParams where
  VERBOSITY : Int
  TIMESTAMPED : Bool
  DATA_DIR : String
deriving DecidableEq

/-- Python truthiness of an optional integer argument: None and 0 are
falsy, every other integer is truthy. -/
def pyTruthyInt : Option Int → Bool
  | none => false
  | some n => n != 0

/-- Python truthiness of an optional boolean argument: None and False
are falsy. -/
def pyTruthyBool : Option Bool → Bool
  | none => false
  | some b => b

/-- Python truthiness of an optional string argument: None and the
empty string are falsy. -/
def pyTruthyStr : Option String → Bool
  | none => false
  | some s => s != ""

/-- Embedding of helper.set_params: each global is replaced by the
corresponding argument exactly when that argument is truthy, via the
conditional expressions of the source (arg if arg else GLOBAL). -/
def set_params (p : HelperParams) (verbosity : Option Int)
    (timestamped : Option Bool) (data_dir : Option String) : HelperParams :=
  { VERBOSITY := if pyTruthyInt verbosity then verbosity.getD p.VERBOSITY else p.VERBOSITY
    TIMESTAMPED := if pyTruthyBool timestamped then timestamped.getD p.TIMESTAMPED else p.TIMESTAMPED
    DATA_DIR := if pyTruthyStr data_dir then data_dir.getD p.DATA_DIR else p.DATA_DIR }

/-! ## evaluation/analyze.py: offline result aggregation -/

/-- One test-output record of the persisted results array, with the
eight metric fields read by analyze.py and the patient id. -/
structure TestRecord where
  id : String
  test_dice_metric : ℚ
  test_dice_et : ℚ
  test_dice_tc : ℚ
  test_dice_wt : ℚ
  test_hd_metric : ℚ
  test_hd_et : ℚ
  test_hd_tc : ℚ
  test_hd_wt : ℚ
deriving DecidableEq

/-- Arithmetic mean of a list of rationals, modelling numpy.mean on a
nonempty list. -/
def listMean (xs : List ℚ) : ℚ := xs.sum / xs.length

/-- Embedding of the best-id scan of analyze.py.  The accumulator pair
carries the variables best and id of the source; the source compares
each dice value against best but never assigns best, so best stays at
its initial value 0 throughout the loop and id is overwritten by every
record whose dice value exceeds 0. -/
def bestScan (results : List TestRecord) : ℚ × Option String :=
  results.foldl
    (fun acc res =>
      if res.test_dice_metric > acc.1 then (acc.1, some res.id) else acc)
    ((0 : ℚ), none)

/-- The eight per-metric means printed by analyze.py. -/
structure AnalyzeSummary where
  mean_dice : ℚ
  mean_dice_et : ℚ
  mean_dice_tc : ℚ
  mean_dice_wt : ℚ
  mean_hd : ℚ
  mean_hd_et : ℚ
  mean_hd_tc : ℚ
  mean_hd_wt : ℚ
deriving DecidableEq

/-- Embedding of the mean computation of analyze.py: each metric list
is collected across the records and averaged. -/
def analyzeMeans (results : List TestRecord) : AnalyzeSummary :=
  { mean_dice := listMean (results.map (fun r => r.test_dice_metric))
    mean_dice_et := listMean (results.map (fun r => r.test_dice_et))
    mean_dice_tc := listMean (results.map (fun r => r.test_dice_tc))
    mean_dice_wt := listMean (results.map (fun r => r.test_dice_wt))
    mean_hd := listMean (results.map (fun r => r.test_hd_metric))
    mean_hd_et := listMean (results.map (fun r => r.test_hd_et))
    mean_hd_tc := listMean (results.map (fun r => r.test_hd_tc))
    mean_hd_wt := listMean (results.map (fun r => r.test_hd_wt)) }

/-! ## training/lightning.py: epoch-end aggregation -/

/-- Failures of the epoch-end aggregation loop: indexing outputs[0] on
an empty list, or a key lookup failing on a later step mapping. -/
inductive EpochError where
  | indexError : EpochError
  | keyError : String → EpochError
deriving DecidableEq

/-- A per-step result mapping: a Python dict from metric name to value,
modelled as an association list whose keys are unique. -/
abbrev StepOutput : Type := List (String × ℚ)

/-- Sum of the values of metric k over all step outputs, modelling the
inner accumulation loop; a missing key raises a KeyError. -/
def sumMetric (k : String) (outputs : List StepOutput) : Except EpochError ℚ :=
  outputs.foldlM
    (fun total out =>
      match List.lookup k out with
      | some v => Except.ok (total + v)
      | none => Except.error (EpochError.keyError k))
    (0 : ℚ)

/-- Embedding of the epoch-end aggregation body shared by the training
and validation epoch-end hooks: the metric names are the keys of the
first step output (dict.fromkeys(outputs[0])); for each such key the
values are summed across all outputs and divided by the number of
outputs, and the (name, mean) pairs are reported in key order. -/
def epochEndAggregate (outputs : List StepOutput) :
    Except EpochError (List (String × ℚ)) :=
  match outputs with
  | [] => Except.error EpochError.indexError
  | first :: _ =>
    (first.map Prod.fst).mapM
      (fun k => do
        let total ← sumMetric k outputs
        pure (k, total / (outputs.length : ℚ)))

/-- The training_epoch_end hook of UNetLightning; its aggregation body
is exactly epochEndAggregate. -/
def training_epoch_end (outputs : List StepOutput) :
    Except EpochError (List (String × ℚ)) :=
  epochEndAggregate outputs

/-- The validation_epoch_end hook of UNetLightning; its body is
character-for-character the same aggregation loop. -/
def validation_epoch_end (outputs : List StepOutput) :
    Except EpochError (List (String × ℚ)) :=
  epochEndAggregate outputs

/-! ## training/data_module.py: path resolution -/

/-- Boolean lexicographic comparison of character lists by code point,
modelling the string order used by the Python sorted builtin. -/
def charListLe : List Char → List Char → Bool
  | [], _ => true
  | _ :: _, [] => false
  | a :: as, b :: bs => if a < b then true else if b < a then false else charListLe as bs

/-- Stable insertion of one element into a list under a boolean
comparison. -/
def orderedInsertB (le : α → α → Bool) (a : α) : List α → List α
  | [] => [a]
  | b :: l => if le a b then a :: b :: l else b :: orderedInsertB le a l

/-- Stable insertion sort under a boolean comparison, modelling the
Python sorted builtin. -/
def insertionSortB (le : α → α → Bool) : List α → List α
  | [] => []
  | a :: l => orderedInsertB le a (insertionSortB le l)

/-- Split a character list at every slash, modelling the Python str
split method with separator slash. -/
def splitOnSlash : List Char → List (List Char)
  | [] => [[]]
  | c :: t =>
    if c = '/' then [] :: splitOnSlash t
    else
      match splitOnSlash t with
      | [] => [[c]]
      | h :: r => (c :: h) :: r

/-- Last path component of a string: the last piece of the slash
split, as selected by the index -1 in the source. -/
def lastComponent (s : String) : String :=
  ⟨(splitOnSlash s.toList).getLastD []⟩

/-- One directory entry of the dataset root: the entry name and the
names of the files inside it. -/
structure Dir where
  name : String
  files : List String
deriving DecidableEq

/-- A patient record as built by get_data: the patient id, the list of
input image paths and the optional segmentation target path. -/
structure Patient where
  id : String
  input : List String
  target : Option String
deriving DecidableEq

/-- Per-patient body of the get_data loop: glob each modality pattern
inside the patient directory and take the first match (indexing with
[0] fails, as none, when a glob yields no match); the target is added
only when labeled. -/
def buildRecord (root_dir : String) (labeled : Bool) (d : Dir) : Option Patient := do
  let t1 ← (d.files.filter (fun f => pyHasSub f "t1.")).head?
  let t1ce ← (d.files.filter (fun f => pyHasSub f "t1ce.")).head?
  let t2 ← (d.files.filter (fun f => pyHasSub f "t2.")).head?
  let flair ← (d.files.filter (fun f => pyHasSub f "flair.")).head?
  let input := [t1, t1ce, t2, flair].map (fun f => pyJoin (pyJoin root_dir d.name) f)
  if labeled then
    let seg ← (d.files.filter (fun f => pyHasSub f "seg")).head?
    some { id := d.name, input := input, target := some (pyJoin (pyJoin root_dir d.name) seg) }
  else
    some { id := d.name, input := input, target := none }

/-- Embedding of get_data: the root directory listing is sorted by
name, entries whose name starts with BraTS20 are kept (the later check
for a leading dot mirrors the dead skip of the source), and one record
is built per remaining entry; the assertion on the last path component
of the root directory name fails, as none, otherwise. -/
def get_data (root_dir : String) (dirs : List Dir) (labeled : Bool) :
    Option (List Patient) :=
  if pyStartsWith (lastComponent root_dir) "MICCAI_BraTS2020" then
    let ids := (insertionSortB (fun a b => charListLe a.name.toList b.name.toList) dirs).filter
      (fun d => pyStartsWith d.name "BraTS20")
    (ids.filter (fun d => !pyStartsWith d.name ".")).mapM (buildRecord root_dir labeled)
  else
    none

/-! ## training/data_module.py: K-fold splitting

The fold computation calls sklearn KFold with shuffle enabled and the
fixed random_state 616.  The KFold algorithm is modelled from its
documented behaviour: the n sample indices are shuffled once, the
shuffled list is cut into K contiguous groups whose sizes are n / K
rounded up for the first n mod K groups and rounded down for the rest,
group k is the validation index set of fold k, and the training index
set is every other index in ascending order.  The shuffle permutation
itself is a pseudorandom function of the seed; it is kept abstract as
a parameter, and the seed is drawn from ambient numpy entropy exactly
when random_state is absent. -/

/-- KFold group sizes: n / K plus one for the first n mod K groups. -/
def foldSizes (K n : ℕ) : List ℕ :=
  (List.range K).map (fun i => n / K + if i < n % K then 1 else 0)

/-- Cut a list into consecutive chunks of the given sizes. -/
def chunksBy : List ℕ → List α → List (List α)
  | [], _ => []
  | s :: ss, xs => xs.take s :: chunksBy ss (xs.drop s)

/-- KFold split of n samples into K folds given the shuffled index
list: each fold pairs the ascending training indices with the
validation chunk.  KFold raises, modelled as none, unless 2 ≤ K ≤ n. -/
def kfoldSplit (K n : ℕ) (perm : List ℕ) :
    Option (List (List ℕ × List ℕ)) :=
  if 2 ≤ K ∧ K ≤ n then
    some ((chunksBy (foldSizes K n) perm).map
      (fun te => ((List.range n).filter (fun i => !(te.contains i)), te)))
  else
    none

/-- Shuffled index list used by KFold: the shuffle function is applied
to the configured random_state when one is given, and to the ambient
numpy entropy otherwise. -/
def kfoldPermutation (shuffleOf : ℕ → ℕ → List ℕ) (randomState : Option ℕ)
    (entropy n : ℕ) : List ℕ :=
  match randomState with
  | some seed => shuffleOf seed n
  | none => shuffleOf entropy n

/-! ## training/data_module.py: the data module -/

/-- The four transform pipelines obtained from training.transforms;
external collaborators, identified here by their variant. -/
inductive Transform where
  | training : Transform
  | validation : Transform
  | test : Transform
  | visualization : Transform
deriving DecidableEq

/-- A monai Dataset: a list of patient records bound to a transform. -/
structure DatasetM where
  data : List Patient
  transform : Transform
deriving DecidableEq

/-- State of a BraTSDataModule instance after construction: the
configuration, the resolved records, the five stored folds, the four
per-stage record subsets, and the four datasets that setup fills in. -/
structure ModuleState where
  patch_dim : ℕ
  num_workers : ℕ
  batch_size : ℕ
  n_folds : ℕ
  fold_index : ℕ
  training_transform : Transform
  validation_transform : Transform
  test_transform : Transform
  visualization_transform : Transform
  data : List Patient
  folds : List (List ℕ × List ℕ)
  training_data : List Patient
  validation_data : List Patient
  test_data : List Patient
  visualization_data : List Patient
  training_set : Option DatasetM
  validation_set : Option DatasetM
  test_set : Option DatasetM
  visualization_set : Option DatasetM
deriving DecidableEq

/-- Embedding of the BraTSDataModule constructor: resolve the records
with get_data, split them with KFold under the fixed random_state 616,
harvest the first five folds from the split generator (the loop runs
next exactly five times, so it fails, as none, when fewer than five
folds exist), select the fold at fold_index (an out-of-range index
fails, as none), and store the training and validation records; the
test and visualization subsets are assigned the validation subset. -/
def mkBraTSDataModule (shuffleOf : ℕ → ℕ → List ℕ) (entropy : ℕ)
    (data_dir : String) (dirs : List Dir)
    (patch_dim num_workers batch_size n_folds fold_index : ℕ) :
    Option ModuleState := do
  let data ← get_data data_dir dirs true
  let perm := kfoldPermutation shuffleOf (some 616) entropy data.length
  let splits ← kfoldSplit n_folds data.length perm
  if splits.length < 5 then
    none
  else
    let folds := splits.take 5
    let fold ← folds[fold_index]?
    let training_data := fold.1.filterMap (fun idx => data[idx]?)
    let validation_data := fold.2.filterMap (fun idx => data[idx]?)
    some
      { patch_dim := patch_dim
        num_workers := num_workers
        batch_size := batch_size
        n_folds := n_folds
        fold_index := fold_index
        training_transform := Transform.training
        validation_transform := Transform.validation
        test_transform := Transform.test
        visualization_transform := Transform.visualization
        data := data
        folds := folds
        training_data := training_data
        validation_data := validation_data
        test_data := validation_data
        visualization_data := validation_data
        training_set := none
        validation_set := none
        test_set := none
        visualization_set := none }

/-- Embedding of BraTSDataModule.setup: three independent branches,
each taken when the stage matches its name or no stage is given, build
the corresponding datasets from the stored record subsets and
transforms.  Any other stage value matches no branch. -/
def setup (s : ModuleState) (stage : Option String) : ModuleState :=
  let s1 :=
    if stage = some "fit" ∨ stage = none then
      { s with
        training_set := some { data := s.training_data, transform := s.training_transform }
        validation_set := some { data := s.validation_data, transform := s.validation_transform } }
    else s
  let s2 :=
    if stage = some "test" ∨ stage = none then
      { s1 with test_set := some { data := s1.test_data, transform := s1.test_transform } }
    else s1
  if stage = some "visualize" ∨ stage = none then
    { s2 with
      visualization_set := some { data := s2.visualization_data, transform := s2.visualization_transform } }
  else s2

/-- Configuration of a constructed DataLoader, holding the dataset it
was given (which is absent when setup has not built it). -/
structure DataLoaderCfg where
  dataset : Option DatasetM
  batch_size : ℕ
  shuffle : Bool
  num_workers : ℕ
  pin_memory : Bool
deriving DecidableEq

/-- Embedding of train_dataloader: wraps the training set with
reshuffling enabled. -/
def train_dataloader (s : ModuleState) : DataLoaderCfg :=
  { dataset := s.training_set
    batch_size := s.batch_size
    shuffle := true
    num_workers := s.num_workers
    pin_memory := false }

/-- Embedding of val_dataloader: wraps the validation set; shuffling
keeps the framework default, disabled. -/
def val_dataloader (s : ModuleState) : DataLoaderCfg :=
  { dataset := s.validation_set
    batch_size := s.batch_size
    shuffle := false
    num_workers := s.num_workers
    pin_memory := false }

/-- Embedding of test_dataloader: wraps the test set unconditionally;
the source performs no initialization check before constructing the
loader. -/
def test_dataloader (s : ModuleState) : DataLoaderCfg :=
  { dataset := s.test_set
    batch_size := s.batch_size
    shuffle := false
    num_workers := s.num_workers
    pin_memory := false }

/-- Error vocabulary of the specified, spec-side data module. -/
inductive DMError where
  | notInitialized : DMError
deriving DecidableEq

/-- Follows the wording of the specification, for comparison with the
source embedding test_dataloader: a loader-construction operation
called before setup has built the corresponding subset fails with
NotInitializedError. -/
def specTestDataloader (s : ModuleState) : Except DMError DataLoaderCfg :=
  match s.test_set with
  | none => Except.error DMError.notInitialized
  | some ds =>
    Except.ok
      { dataset := some ds
        batch_size := s.batch_size
        shuffle := false
        num_workers := s.num_workers
        pin_memory := false }

/-! ## Lemmas on the epoch-end aggregation -/

/-- The inner accumulation loop of the aggregation, run from any
accumulator, returns the accumulator plus the sum of the metric values
when every step output carries the metric. -/
theorem sumMetric_foldlM (x : String) {outs : List StepOutput} {vs : List ℚ}
    (h : List.Forall₂ (fun (out : StepOutput) v => List.lookup x out = some v) outs vs) :
    ∀ a : ℚ,
      (outs.foldlM
        (fun total out =>
          match List.lookup x out with
          | some v => Except.ok (total + v)
          | none => Except.error (EpochError.keyError x))
        a) = Except.ok (a + vs.sum) := by
  induction h with
  | nil =>
    intro a
    simp only [List.foldlM_nil, List.sum_nil, add_zero]
    rfl
  | cons hlk htail ih =>
    intro a
    rename_i out v outs2 vs2
    simp only [List.foldlM_cons, hlk]
    simpa [add_assoc] using ih (a + v)

/-- Specialisation of the accumulation lemma to the starting value 0. -/
theorem sumMetric_ok (x : String) {outs : List StepOutput} {vs : List ℚ}
    (h : List.Forall₂ (fun (out : StepOutput) v => List.lookup x out = some v) outs vs) :
    sumMetric x outs = Except.ok vs.sum := by
  simpa [sumMetric] using sumMetric_foldlM x h 0

/-- Every list of step outputs that all carry metric x is related, by
pointwise lookup, to the list of looked-up values. -/
theorem lookup_forall₂ (x : String) :
    ∀ outs : List StepOutput, (∀ out ∈ outs, (List.lookup x out).isSome = true) →
      List.Forall₂ (fun (out : StepOutput) v => List.lookup x out = some v) outs
        (outs.map (fun out => (List.lookup x out).getD 0)) := by
  intro outs
  induction outs with
  | nil => intro _; simp
  | cons out rest ih =>
    intro h
    have hout := h out (by simp)
    rcases Option.isSome_iff_exists.mp hout with ⟨v, hv⟩
    refine List.Forall₂.cons ?_ (ih (fun o ho => h o (by simp [ho])))
    simp [hv]

/-- The looked-up value list is determined: any Forall₂ witness equals
the pointwise lookup map. -/
theorem forall₂_lookup_eq (x : String) {outs : List StepOutput} {vs : List ℚ}
    (h : List.Forall₂ (fun (out : StepOutput) v => List.lookup x out = some v) outs vs) :
    outs.map (fun out => (List.lookup x out).getD 0) = vs := by
  induction h with
  | nil => rfl
  | cons hlk _ ih => simp [hlk, ih]

/-- A mapM over Except succeeds pointwise: when every element maps to
an ok value described by g, the whole traversal returns the map of g. -/
theorem exceptMapM_ok {α β ε : Type} (f : α → Except ε β) (g : α → β) :
    ∀ l : List α, (∀ a ∈ l, f a = Except.ok (g a)) → l.mapM f = Except.ok (l.map g) := by
  intro l
  induction l with
  | nil => intro _; rfl
  | cons a t ih =>
    intro h
    have ha := h a (by simp)
    have ht := ih (fun b hb => h b (by simp [hb]))
    simp only [List.mapM_cons, ha, ht, List.map_cons]
    rfl

/-- Lookup in an association list built by pairing each key with a
computed value returns the computed value of any member key. -/
theorem lookup_map_pair (g : String → ℚ) :
    ∀ (keys : List String) (x : String), x ∈ keys →
      List.lookup x (keys.map (fun k => (k, g k))) = some (g x) := by
  intro keys
  induction keys with
  | nil => intro x hx; simp at hx
  | cons k t ih =>
    intro x hx
    by_cases hk : x = k
    · have hb : (x == k) = true := by simp [hk]
      simp [List.lookup, hb, hk]
    · rcases List.mem_cons.mp hx with h | h
      · exact absurd h hk
      · have hb : (x == k) = false := by simp [hk]
        simp [List.lookup, hb, ih x h]

/-- C3: when every step output of a nonempty epoch carries every metric
key of the first output, both epoch-end hooks succeed with the same
report; the metric x, carried with values vs across the steps, is
reported with mean equal to the sum of vs divided by the number of
steps, and is reported exactly once. -/
theorem epoch_end_reports_mean (first : StepOutput) (rest : List StepOutput)
    (x : String) (vs : List ℚ)
    (hnodup : (first.map Prod.fst).Nodup)
    (hall : ∀ out ∈ first :: rest, ∀ k ∈ first.map Prod.fst,
      (List.lookup k out).isSome = true)
    (hx : x ∈ first.map Prod.fst)
    (hvs : List.Forall₂ (fun (out : StepOutput) v => List.lookup x out = some v)
      (first :: rest) vs) :
    ∃ logged,
      training_epoch_end (first :: rest) = Except.ok logged ∧
      validation_epoch_end (first :: rest) = Except.ok logged ∧
      List.lookup x logged = some (vs.sum / ((first :: rest).length : ℚ)) ∧
      (logged.map Prod.fst).count x = 1 := by
  classical
  have hfk : ∀ k ∈ first.map Prod.fst,
      (do
        let total ← sumMetric k (first :: rest)
        pure (k, total / (((first :: rest).length : ℕ) : ℚ)) :
          Except EpochError (String × ℚ)) =
        Except.ok (k, (fun j =>
          (((first :: rest).map (fun out => (List.lookup j out).getD 0)).sum /
            (((first :: rest).length : ℕ) : ℚ))) k) := by
    intro k hk
    have hsum := sumMetric_ok k (lookup_forall₂ k (first :: rest)
      (fun o ho => hall o ho k hk))
    simp [hsum]
  have hagg : epochEndAggregate (first :: rest) =
      Except.ok ((first.map Prod.fst).map (fun k => (k,
        ((first :: rest).map (fun out => (List.lookup k out).getD 0)).sum /
          (((first :: rest).length : ℕ) : ℚ)))) := by
    have h2 := exceptMapM_ok _ _ (first.map Prod.fst) hfk
    simpa [epochEndAggregate] using h2
  refine ⟨(first.map Prod.fst).map (fun k => (k,
      ((first :: rest).map (fun out => (List.lookup k out).getD 0)).sum /
        (((first :: rest).length : ℕ) : ℚ))), ?_, ?_, ?_, ?_⟩
  · simpa [training_epoch_end] using hagg
  · simpa [validation_epoch_end] using hagg
  · rw [lookup_map_pair (fun k =>
      ((first :: rest).map (fun out => (List.lookup k out).getD 0)).sum /
        (((first :: rest).length : ℕ) : ℚ)) (first.map Prod.fst) x hx]
    rw [forall₂_lookup_eq x hvs]
  · have hmap : (((first.map Prod.fst).map (fun k => (k,
        ((first :: rest).map (fun out => (List.lookup k out).getD 0)).sum /
          (((first :: rest).length : ℕ) : ℚ)))).map Prod.fst) =
        first.map Prod.fst := by
      simp [List.map_map, Function.comp]
    rw [hmap]
    exact List.count_eq_one_of_mem hnodup hx

/-! ## Lemmas on the aggregation failure behaviour -/

/-- Bind on Except applied to an ok value reduces to the continuation. -/
theorem except_bind_ok {ε γ δ : Type} (v : γ) (g : γ → Except ε δ) :
    (Except.ok v >>= g : Except ε δ) = g v := rfl

/-- Bind on Except applied to an error propagates the error. -/
theorem except_bind_error {ε γ δ : Type} (e : ε) (g : γ → Except ε δ) :
    ((Except.error e : Except ε γ) >>= g) = Except.error e := rfl

/-- Pure on Except is the ok constructor. -/
theorem except_pure {ε γ : Type} (v : γ) :
    (pure v : Except ε γ) = Except.ok v := rfl

/-- The inner accumulation loop, from any accumulator, succeeds exactly
when every step output carries the metric. -/
theorem sumMetric_foldlM_ok_iff (x : String) :
    ∀ (outs : List StepOutput) (a : ℚ),
      (∃ t, (outs.foldlM
        (fun total out =>
          match List.lookup x out with
          | some v => Except.ok (total + v)
          | none => Except.error (EpochError.keyError x))
        a) = Except.ok t) ↔
      ∀ out ∈ outs, (List.lookup x out).isSome = true := by
  intro outs
  induction outs with
  | nil =>
    intro a
    constructor
    · intro _ out hout
      simp at hout
    · intro _
      exact ⟨a, rfl⟩
  | cons out rest ih =>
    intro a
    cases hl : List.lookup x out with
    | some v =>
      constructor
      · intro h o ho
        rcases List.mem_cons.mp ho with h1 | h1
        · simp [h1, hl]
        · refine ((ih (a + v)).mp ?_) o h1
          simpa [List.foldlM_cons, hl, except_bind_ok] using h
      · intro h
        have := (ih (a + v)).mpr (fun o ho => h o (by simp [ho]))
        simpa [List.foldlM_cons, hl, except_bind_ok] using this
    | none =>
      constructor
      · intro h
        rcases h with ⟨t, ht⟩
        simp [List.foldlM_cons, hl, except_bind_error] at ht
      · intro h
        have := h out (by simp)
        simp [hl] at this

/-- sumMetric succeeds exactly when every step output carries the
metric. -/
theorem sumMetric_ok_iff (x : String) (outs : List StepOutput) :
    (∃ t, sumMetric x outs = Except.ok t) ↔
      ∀ out ∈ outs, (List.lookup x out).isSome = true := by
  simpa [sumMetric] using sumMetric_foldlM_ok_iff x outs 0

/-- A mapM over Except succeeds exactly when it succeeds pointwise. -/
theorem exceptMapM_ok_iff {α β ε : Type} (f : α → Except ε β) :
    ∀ l : List α,
      (∃ ys, l.mapM f = Except.ok ys) ↔ ∀ a ∈ l, ∃ y, f a = Except.ok y := by
  intro l
  induction l with
  | nil =>
    constructor
    · intro _ a ha
      simp at ha
    · intro _
      exact ⟨[], rfl⟩
  | cons a t ih =>
    rw [List.mapM_cons]
    cases hf : f a with
    | ok y =>
      cases h2 : t.mapM f with
      | ok ys =>
        simp only [except_bind_ok, except_pure]
        constructor
        · intro _ b hb
          rcases List.mem_cons.mp hb with h1 | h1
          · exact ⟨y, h1 ▸ hf⟩
          · exact (ih.mp ⟨ys, h2⟩) b h1
        · intro _
          exact ⟨y :: ys, rfl⟩
      | error e =>
        simp only [except_bind_ok, except_bind_error]
        constructor
        · intro h
          rcases h with ⟨ys, hys⟩
          cases hys
        · intro h
          rcases ih.mpr (fun b hb => h b (by simp [hb])) with ⟨ys, hys⟩
          rw [h2] at hys
          cases hys
    | error e =>
      simp only [except_bind_error]
      constructor
      · intro h
        rcases h with ⟨ys, hys⟩
        cases hys
      · intro h
        rcases h a (by simp) with ⟨y, hy⟩
        rw [hf] at hy
        cases hy

/-- C6, amended: the epoch-end aggregation of a nonempty epoch succeeds
exactly when every step output carries every metric key of the first
step output; in particular equal key sets always succeed, a key present
only in later steps is ignored rather than rejected, and a missing key
fails the aggregation (with a key error, no dedicated inconsistency
error existing); the validation hook behaves identically. -/
theorem epoch_end_success_iff (first : StepOutput) (rest : List StepOutput) :
    ((∃ logged, training_epoch_end (first :: rest) = Except.ok logged) ↔
      ∀ out ∈ first :: rest, ∀ k ∈ first.map Prod.fst,
        (List.lookup k out).isSome = true) ∧
    validation_epoch_end (first :: rest) = training_epoch_end (first :: rest) := by
  constructor
  · have hstep : ∀ k : String,
        (∃ y, (do
          let total ← sumMetric k (first :: rest)
          pure (k, total / (((first :: rest).length : ℕ) : ℚ)) :
            Except EpochError (String × ℚ)) = Except.ok y) ↔
        (∃ t, sumMetric k (first :: rest) = Except.ok t) := by
      intro k
      cases hsm : sumMetric k (first :: rest) with
      | ok t =>
        constructor
        · intro _
          exact ⟨t, rfl⟩
        · intro _
          exact ⟨(k, t / (((first :: rest).length : ℕ) : ℚ)), rfl⟩
      | error e =>
        constructor
        · intro h
          rcases h with ⟨y, hy⟩
          rw [except_bind_error] at hy
          cases hy
        · intro h
          rcases h with ⟨t, ht⟩
          cases ht
    have hmain := exceptMapM_ok_iff
      (fun k => (do
        let total ← sumMetric k (first :: rest)
        pure (k, total / (((first :: rest).length : ℕ) : ℚ)) :
          Except EpochError (String × ℚ)))
      (first.map Prod.fst)
    constructor
    · intro h out hout k hk
      have h1 := hmain.mp (by simpa [training_epoch_end, epochEndAggregate] using h) k hk
      have h2 := (sumMetric_ok_iff k (first :: rest)).mp ((hstep k).mp h1)
      exact h2 out hout
    · intro h
      have h1 : ∀ k ∈ first.map Prod.fst, ∃ y,
          (do
            let total ← sumMetric k (first :: rest)
            pure (k, total / (((first :: rest).length : ℕ) : ℚ)) :
              Except EpochError (String × ℚ)) = Except.ok y := by
        intro k hk
        exact (hstep k).mpr ((sumMetric_ok_iff k (first :: rest)).mpr
          (fun out hout => h out hout k hk))
      simpa [training_epoch_end, epochEndAggregate] using hmain.mpr h1
  · rfl

/-- C6, counterexample: two step outputs with different key sets (the
second carries an extra metric y) aggregate without any error: the
aggregation reports the mean of x and silently ignores y, so no
inconsistency of metric sets is ever detected. -/
theorem mismatched_keys_aggregate_ok :
    (([(("x" : String), (1 : ℚ))].map Prod.fst) ≠
      ([(("x" : String), (2 : ℚ)), ("y", 3)].map Prod.fst)) ∧
    training_epoch_end [[("x", 1)], [("x", 2), ("y", 3)]] =
      Except.ok [("x", 3/2)] := by
  constructor
  · simp
  · simp only [training_epoch_end, epochEndAggregate, List.map_cons, List.map_nil]
    rw [List.mapM_cons, List.mapM_nil]
    simp only [sumMetric, List.foldlM_cons, List.foldlM_nil, List.lookup]
    norm_num [except_bind_ok, except_bind_error, except_pure]

/-! ## Concrete demonstration inputs -/

/-- Identity shuffle model: every seed yields the unshuffled index
list; a permutation of the index range, as any shuffle produces. -/
def idShuffle : ℕ → ℕ → List ℕ := fun _ n => List.range n

/-- A five-patient dataset root listing, one file per modality and one
segmentation file in each patient directory. -/
def demoDirs : List Dir :=
  [{ name := "BraTS20_Training_001",
     files := ["a_t1.nii", "a_t1ce.nii", "a_t2.nii", "a_flair.nii", "a_seg.nii"] },
   { name := "BraTS20_Training_002",
     files := ["b_t1.nii", "b_t1ce.nii", "b_t2.nii", "b_flair.nii", "b_seg.nii"] },
   { name := "BraTS20_Training_003",
     files := ["c_t1.nii", "c_t1ce.nii", "c_t2.nii", "c_flair.nii", "c_seg.nii"] },
   { name := "BraTS20_Training_004",
     files := ["d_t1.nii", "d_t1ce.nii", "d_t2.nii", "d_flair.nii", "d_seg.nii"] },
   { name := "BraTS20_Training_005",
     files := ["e_t1.nii", "e_t1ce.nii", "e_t2.nii", "e_flair.nii", "e_seg.nii"] }]

/-- Fallback module state used only to strip the Option from the demo
construction below. -/
def fallbackState : ModuleState :=
  { patch_dim := 0, num_workers := 0, batch_size := 0, n_folds := 0, fold_index := 0,
    training_transform := Transform.training, validation_transform := Transform.validation,
    test_transform := Transform.test, visualization_transform := Transform.visualization,
    data := [], folds := [], training_data := [], validation_data := [],
    test_data := [], visualization_data := [], training_set := none,
    validation_set := none, test_set := none, visualization_set := none }

/-- The module state constructed over the five-patient listing with the
default configuration of the source (five folds, fold index 0, batch
size 1, no workers, patch dimension 128). -/
def demoModule : ModuleState :=
  (mkBraTSDataModule idShuffle 0 "MICCAI_BraTS2020_TrainingData" demoDirs
    128 0 1 5 0).getD fallbackState


/-! ## Data module theorems -/

/-- C7: fold computation is deterministic.  The module construction
feeds the fixed random_state 616 to the shuffle, so the ambient numpy
entropy never reaches it: two constructions under arbitrary and
distinct entropy values agree exactly, and in particular store
bit-identical train and validation index sets for every fold. -/
theorem kfold_deterministic (shuffleOf : ℕ → ℕ → List ℕ) (e1 e2 : ℕ)
    (root : String) (dirs : List Dir) (pd nw bs nf fi : ℕ) :
    mkBraTSDataModule shuffleOf e1 root dirs pd nw bs nf fi =
      mkBraTSDataModule shuffleOf e2 root dirs pd nw bs nf fi := rfl

/-- C5, amended: setup with stage fit builds the training and
validation sets, stage test builds the test set, stage visualize
builds the visualization set, and the absent stage (None, the default)
builds all four; the stage literal all matches no branch and builds
nothing. -/
theorem setup_stage_behaviour (s : ModuleState) :
    setup s (some "fit") =
      { s with
        training_set := some { data := s.training_data, transform := s.training_transform }
        validation_set := some { data := s.validation_data, transform := s.validation_transform } } ∧
    setup s (some "test") =
      { s with test_set := some { data := s.test_data, transform := s.test_transform } } ∧
    setup s (some "visualize") =
      { s with
        visualization_set :=
          some { data := s.visualization_data, transform := s.visualization_transform } } ∧
    setup s none =
      { s with
        training_set := some { data := s.training_data, transform := s.training_transform }
        validation_set := some { data := s.validation_data, transform := s.validation_transform }
        test_set := some { data := s.test_data, transform := s.test_transform }
        visualization_set :=
          some { data := s.visualization_data, transform := s.visualization_transform } } ∧
    setup s (some "all") = s := by
  refine ⟨?_, ?_, ?_, ?_, ?_⟩ <;> simp [setup]

/-- C5, counterexample: on the freshly constructed demo module, whose
four dataset slots are all empty, setup with the stage literal all
changes nothing: no dataset is built, contradicting the claim that
stage all builds all subsets. -/
theorem setup_all_builds_nothing :
    demoModule.training_set = none ∧
    demoModule.validation_set = none ∧
    demoModule.test_set = none ∧
    demoModule.visualization_set = none ∧
    setup demoModule (some "all") = demoModule := by
  refine ⟨by decide, by decide, by decide, by decide, by decide⟩

/-- C4, amended: calling test_dataloader on any module state whose test
set has not been built returns a loader over the absent dataset; no
initialization check runs and no error of any kind is raised. -/
theorem test_dataloader_uninitialized (s : ModuleState) (h : s.test_set = none) :
    test_dataloader s =
      { dataset := none, batch_size := s.batch_size, shuffle := false,
        num_workers := s.num_workers, pin_memory := false } := by
  simp [test_dataloader, h]

/-- Witness for the amended C4 theorem at the freshly constructed demo
module. -/
theorem test_dataloader_uninitialized_witness :
    test_dataloader demoModule =
      { dataset := none, batch_size := demoModule.batch_size, shuffle := false,
        num_workers := demoModule.num_workers, pin_memory := false } :=
  test_dataloader_uninitialized demoModule (by decide)

/-- C4, counterexample: the demo module is freshly constructed, setup
has not run, its test set is absent, and yet test_dataloader returns a
plain loader configuration; the specified behaviour, a
NotInitializedError failure, differs, as the spec-side definition
shows. -/
theorem test_dataloader_before_setup_no_error :
    mkBraTSDataModule idShuffle 0 "MICCAI_BraTS2020_TrainingData" demoDirs
      128 0 1 5 0 = some demoModule ∧
    demoModule.test_set = none ∧
    test_dataloader demoModule =
      { dataset := none, batch_size := 1, shuffle := false,
        num_workers := 0, pin_memory := false } ∧
    specTestDataloader demoModule = Except.error DMError.notInitialized := by
  refine ⟨by decide, by decide, by decide, rfl⟩

/-! ## Lemmas on the chunked fold structure -/

/-- Cutting a list into chunks yields one chunk per requested size. -/
theorem chunksBy_length {α : Type} : ∀ (sizes : List ℕ) (xs : List α),
    (chunksBy sizes xs).length = sizes.length := by
  intro sizes
  induction sizes with
  | nil => intro xs; rfl
  | cons s ss ih => intro xs; simp [chunksBy, ih]

/-- Taking a prefix of the chunk list is chunking by the prefix of the
sizes. -/
theorem chunksBy_take {α : Type} : ∀ (k : ℕ) (sizes : List ℕ) (xs : List α),
    (chunksBy sizes xs).take k = chunksBy (sizes.take k) xs := by
  intro k
  induction k with
  | zero => intro sizes xs; simp [chunksBy]
  | succ n ih =>
    intro sizes xs
    cases sizes with
    | nil => simp [chunksBy]
    | cons s ss => simp [chunksBy, ih]

/-- Flattening the chunk list recovers the prefix of the original list
of length the sum of the sizes. -/
theorem chunksBy_flatten {α : Type} : ∀ (sizes : List ℕ) (xs : List α),
    (chunksBy sizes xs).flatten = xs.take sizes.sum := by
  intro sizes
  induction sizes with
  | nil => intro xs; simp [chunksBy]
  | cons s ss ih =>
    intro xs
    simp only [chunksBy, List.flatten_cons, ih, List.sum_cons]
    rw [List.take_add]

/-- C2: the fold harvest drops a record when six folds are requested
over six records.  KFold itself partitions the six indices into six
validation singletons, but the constructor stores only the first five
folds it draws from the generator, so the stored validation sets hold
five indices in total and the sixth record appears in none of them;
the claimed exactly-once partition property fails for K = 6. -/
theorem folds_harvest_drops_record (shuffleOf : ℕ → ℕ → List ℕ) (entropy : ℕ)
    (root : String) (dirs : List Dir) (pd nw bs : ℕ) (data : List Patient)
    (hdata : get_data root dirs true = some data)
    (hlen : data.length = 6)
    (hperm : (shuffleOf 616 6).length = 6) :
    (mkBraTSDataModule shuffleOf entropy root dirs pd nw bs 6 0).map
        (fun m => (m.folds.length, (m.folds.map Prod.snd).flatten.length)) =
      some (5, 5) := by
  have hsplit : kfoldSplit 6 data.length (kfoldPermutation shuffleOf (some 616) entropy data.length) =
      some ((chunksBy (foldSizes 6 6) (shuffleOf 616 6)).map
        (fun te => ((List.range 6).filter (fun i => !(te.contains i)), te))) := by
    simp [kfoldSplit, kfoldPermutation, hlen]
  have hSlen : ((chunksBy (foldSizes 6 6) (shuffleOf 616 6)).map
      (fun te => ((List.range 6).filter (fun i => !(te.contains i)), te))).length = 6 := by
    rw [List.length_map, chunksBy_length]
    simp [foldSizes]
  set S := (chunksBy (foldSizes 6 6) (shuffleOf 616 6)).map
      (fun te => ((List.range 6).filter (fun i => !(te.contains i)), te)) with hS
  have h5len : (S.take 5).length = 5 := by
    simp [hSlen]
  have hfold : ∃ fold, (S.take 5)[0]? = some fold := by
    have hpos : 0 < (S.take 5).length := by omega
    exact ⟨(S.take 5)[0], List.getElem?_eq_getElem hpos⟩
  rcases hfold with ⟨fold, hfold⟩
  simp only [mkBraTSDataModule, hdata, Option.bind_eq_bind, Option.some_bind,
    hsplit, ← hS, hSlen]
  rw [if_neg (by omega : ¬ ((6 : ℕ) < 5))]
  rw [hfold]
  simp only [Option.some_bind, Option.map_some', Option.some.injEq, Prod.mk.injEq]
  constructor
  · exact h5len
  · have hmapsnd : (S.take 5).map Prod.snd =
        chunksBy ((foldSizes 6 6).take 5) (shuffleOf 616 6) := by
      rw [hS, ← List.map_take, chunksBy_take]
      generalize chunksBy ((foldSizes 6 6).take 5) (shuffleOf 616 6) = L
      induction L with
      | nil => rfl
      | cons h t ih =>
        simp only [List.map_cons]
        rw [ih]
    rw [hmapsnd, chunksBy_flatten]
    have hsum : ((foldSizes 6 6).take 5).sum = 5 := by decide
    rw [hsum]
    simp [hperm]

/-- Root listing with six patient directories, used to exercise the
fold harvest with six requested folds. -/
def demoDirs6 : List Dir :=
  demoDirs ++
    [{ name := "BraTS20_Training_006",
       files := ["f_t1.nii", "f_t1ce.nii", "f_t2.nii", "f_flair.nii", "f_seg.nii"] }]

/-- Witness for the fold-harvest theorem: six records, six requested
folds, identity shuffle; the stored folds number five and their
validation sets hold five of the six indices. -/
theorem folds_harvest_drops_record_witness :
    (mkBraTSDataModule idShuffle 0 "MICCAI_BraTS2020_TrainingData" demoDirs6
        128 0 1 6 0).map
        (fun m => (m.folds.length, (m.folds.map Prod.snd).flatten.length)) =
      some (5, 5) :=
  folds_harvest_drops_record idShuffle 0 "MICCAI_BraTS2020_TrainingData" demoDirs6
    128 0 1 ((get_data "MICCAI_BraTS2020_TrainingData" demoDirs6 true).getD [])
    (by decide) (by decide) (by decide)

/-! ## Data module invariants -/

/-- The three setup branches never write the per-stage record lists,
only the dataset slots. -/
theorem setup_preserves_record_subsets (s : ModuleState) (stage : Option String) :
    (setup s stage).training_data = s.training_data ∧
    (setup s stage).validation_data = s.validation_data ∧
    (setup s stage).test_data = s.test_data ∧
    (setup s stage).visualization_data = s.visualization_data := by
  simp only [setup]
  split <;> split <;> split <;> simp

/-- C8: on every constructed module state, the test and visualization
record subsets are the validation record subset, and the identity is
preserved by any sequence of setup calls. -/
theorem subsets_alias_validation (shuffleOf : ℕ → ℕ → List ℕ) (entropy : ℕ)
    (root : String) (dirs : List Dir) (pd nw bs nf fi : ℕ) (m : ModuleState)
    (stages : List (Option String))
    (h : mkBraTSDataModule shuffleOf entropy root dirs pd nw bs nf fi = some m) :
    (stages.foldl setup m).test_data = (stages.foldl setup m).validation_data ∧
    (stages.foldl setup m).visualization_data = (stages.foldl setup m).validation_data := by
  have hbase : m.test_data = m.validation_data ∧
      m.visualization_data = m.validation_data := by
    simp only [mkBraTSDataModule, Option.bind_eq_bind, Option.bind_eq_some] at h
    obtain ⟨data, hdata, h⟩ := h
    obtain ⟨splits, hsplits, h⟩ := h
    by_cases hlt : splits.length < 5
    · simp [hlt] at h
    · rw [if_neg hlt, Option.bind_eq_some] at h
      obtain ⟨fold, hfold, h⟩ := h
      injection h with h
      subst h
      exact ⟨rfl, rfl⟩
  clear h
  induction stages generalizing m with
  | nil => exact hbase
  | cons stage rest ih =>
    rw [List.foldl_cons]
    apply ih
    obtain ⟨ht, hv, hte, hvi⟩ := setup_preserves_record_subsets m stage
    rw [hv, hte, hvi]
    exact hbase

/-- Witness for the aliasing theorem on the demo module, running setup
for fit, then for the unrecognized stage all, then with no stage. -/
theorem subsets_alias_validation_witness :
    (([some "fit", some "all", none] : List (Option String)).foldl setup
        demoModule).test_data =
      (([some "fit", some "all", none] : List (Option String)).foldl setup
        demoModule).validation_data ∧
    (([some "fit", some "all", none] : List (Option String)).foldl setup
        demoModule).visualization_data =
      (([some "fit", some "all", none] : List (Option String)).foldl setup
        demoModule).validation_data :=
  subsets_alias_validation idShuffle 0 "MICCAI_BraTS2020_TrainingData" demoDirs
    128 0 1 5 0 demoModule [some "fit", some "all", none] (by decide)

/-! ## Path resolver lemmas -/

/-- Inserting an element under the boolean order permutes the element
onto the list. -/
theorem orderedInsertB_perm (le : α → α → Bool) (a : α) :
    ∀ l : List α, (orderedInsertB le a l).Perm (a :: l) := by
  intro l
  induction l with
  | nil => exact List.Perm.refl _
  | cons b t ih =>
    simp only [orderedInsertB]
    split
    · exact List.Perm.refl _
    · exact (ih.cons b).trans (List.Perm.swap a b t)

/-- The insertion sort of a list is a permutation of the list. -/
theorem insertionSortB_perm (le : α → α → Bool) :
    ∀ l : List α, (insertionSortB le l).Perm l := by
  intro l
  induction l with
  | nil => exact List.Perm.refl _
  | cons a t ih =>
    exact (orderedInsertB_perm le a (insertionSortB le t)).trans (ih.cons a)

/-- A name that starts with BraTS20 does not start with a dot. -/
theorem brats_not_dot (s : String)
    (h : pyStartsWith s "BraTS20" = true) : pyStartsWith s "." = false := by
  have hB : ("BraTS20".toList) = ['B', 'r', 'a', 'T', 'S', '2', '0'] := rfl
  have hD : (".".toList) = ['.'] := rfl
  unfold pyStartsWith at h ⊢
  rw [hB] at h
  rw [hD]
  cases hl : s.toList with
  | nil => rw [hl] at h; simp [List.isPrefixOf] at h
  | cons c t =>
    rw [hl] at h
    simp only [List.isPrefixOf, Bool.and_eq_true, beq_iff_eq] at h
    obtain ⟨hc, _⟩ := h
    subst hc
    simp [List.isPrefixOf]

/-- A mapM over Option succeeds pointwise and preserves length and any
pointwise property of the produced values. -/
theorem optionMapM_ok {α β : Type} (f : α → Option β) (Q : β → Prop) :
    ∀ l : List α, (∀ x ∈ l, ∃ y, f x = some y ∧ Q y) →
      ∃ ys, l.mapM f = some ys ∧ ys.length = l.length ∧ ∀ y ∈ ys, Q y := by
  intro l
  induction l with
  | nil =>
    intro _
    exact ⟨[], rfl, rfl, by simp⟩
  | cons a t ih =>
    intro h
    obtain ⟨y, hy, hQ⟩ := h a (by simp)
    obtain ⟨ys, hys, hlen, hQs⟩ := ih (fun b hb => h b (by simp [hb]))
    refine ⟨y :: ys, ?_, by simp [hlen], ?_⟩
    · rw [List.mapM_cons, hy, hys]
      rfl
    · intro z hz
      rcases List.mem_cons.mp hz with h1 | h1
      · exact h1 ▸ hQ
      · exact hQs z h1

/-- When each modality glob has exactly one match (and the seg glob
too, when labeled), the per-patient record builder succeeds with four
input paths and, when labeled, a target path. -/
theorem buildRecord_ok (root : String) (labeled : Bool) (d : Dir)
    (h1 : (d.files.filter (fun f => pyHasSub f "t1.")).length = 1)
    (h2 : (d.files.filter (fun f => pyHasSub f "t1ce.")).length = 1)
    (h3 : (d.files.filter (fun f => pyHasSub f "t2.")).length = 1)
    (h4 : (d.files.filter (fun f => pyHasSub f "flair.")).length = 1)
    (h5 : labeled = true → (d.files.filter (fun f => pyHasSub f "seg")).length = 1) :
    ∃ p, buildRecord root labeled d = some p ∧ p.input.length = 4 ∧
      (labeled = true → p.target.isSome = true) := by
  obtain ⟨a1, ha1⟩ := List.length_eq_one.mp h1
  obtain ⟨a2, ha2⟩ := List.length_eq_one.mp h2
  obtain ⟨a3, ha3⟩ := List.length_eq_one.mp h3
  obtain ⟨a4, ha4⟩ := List.length_eq_one.mp h4
  cases labeled with
  | false =>
    refine ⟨{ id := d.name,
              input := [a1, a2, a3, a4].map (fun f => pyJoin (pyJoin root d.name) f),
              target := none }, ?_, by simp, by simp⟩
    simp [buildRecord, ha1, ha2, ha3, ha4]
  | true =>
    obtain ⟨a5, ha5⟩ := List.length_eq_one.mp (h5 rfl)
    refine ⟨{ id := d.name,
              input := [a1, a2, a3, a4].map (fun f => pyJoin (pyJoin root d.name) f),
              target := some (pyJoin (pyJoin root d.name) a5) }, ?_, by simp, by simp⟩
    simp [buildRecord, ha1, ha2, ha3, ha4, ha5]

/-- C9: over a root whose last path component carries the expected
dataset prefix and whose patient directories each hold exactly one
file per modality glob (and one segmentation file when labeled),
get_data returns exactly one record per patient directory, each record
holding exactly four input paths and, when labeled, a present target. -/
theorem get_data_shape (root : String) (dirs : List Dir) (labeled : Bool)
    (hroot : pyStartsWith (lastComponent root) "MICCAI_BraTS2020" = true)
    (hmods : ∀ d ∈ dirs, pyStartsWith d.name "BraTS20" = true →
      ((d.files.filter (fun f => pyHasSub f "t1.")).length = 1 ∧
       (d.files.filter (fun f => pyHasSub f "t1ce.")).length = 1 ∧
       (d.files.filter (fun f => pyHasSub f "t2.")).length = 1 ∧
       (d.files.filter (fun f => pyHasSub f "flair.")).length = 1 ∧
       (labeled = true → (d.files.filter (fun f => pyHasSub f "seg")).length = 1))) :
    (get_data root dirs labeled).map (fun ps =>
        (ps.length, ps.all (fun p => p.input.length == 4 &&
          (!labeled || p.target.isSome)))) =
      some ((dirs.filter (fun d => pyStartsWith d.name "BraTS20")).length, true) := by
  have hperm : (insertionSortB (fun a b => charListLe a.name.toList b.name.toList) dirs).Perm dirs :=
    insertionSortB_perm _ dirs
  simp only [get_data]
  rw [if_pos hroot]
  set ids := (insertionSortB (fun a b => charListLe a.name.toList b.name.toList) dirs).filter
    (fun d => pyStartsWith d.name "BraTS20") with hids
  have hflt : ids.filter (fun d => !pyStartsWith d.name ".") = ids := by
    apply List.filter_eq_self.mpr
    intro d hd
    have hB : pyStartsWith d.name "BraTS20" = true := (List.mem_filter.mp hd).2
    simp [brats_not_dot d.name hB]
  rw [hflt]
  have hall : ∀ d ∈ ids, ∃ p, buildRecord root labeled d = some p ∧
      (p.input.length = 4 ∧ (labeled = true → p.target.isSome = true)) := by
    intro d hd
    have hB : pyStartsWith d.name "BraTS20" = true := (List.mem_filter.mp hd).2
    have hdirs : d ∈ dirs := hperm.mem_iff.mp (List.mem_filter.mp hd).1
    obtain ⟨c1, c2, c3, c4, c5⟩ := hmods d hdirs hB
    obtain ⟨p, hp, hi, ht⟩ := buildRecord_ok root labeled d c1 c2 c3 c4 c5
    exact ⟨p, hp, hi, ht⟩
  obtain ⟨ps, hps, hlen, hQ⟩ := optionMapM_ok (buildRecord root labeled)
    (fun p => p.input.length = 4 ∧ (labeled = true → p.target.isSome = true)) ids hall
  rw [hps]
  simp only [Option.map_some', Option.some.injEq, Prod.mk.injEq]
  constructor
  · rw [hlen, hids]
    exact (hperm.filter _).length_eq
  · rw [List.all_eq_true]
    intro p hp
    obtain ⟨hi, ht⟩ := hQ p hp
    cases labeled with
    | false => simp [hi]
    | true => simp [hi, ht rfl]

/-- Witness for the get_data shape theorem on the five-patient demo
listing with labels requested. -/
theorem get_data_shape_witness :
    (get_data "MICCAI_BraTS2020_TrainingData" demoDirs true).map (fun ps =>
        (ps.length, ps.all (fun p => p.input.length == 4 &&
          (!true || p.target.isSome)))) =
      some ((demoDirs.filter (fun d => pyStartsWith d.name "BraTS20")).length, true) :=
  get_data_shape "MICCAI_BraTS2020_TrainingData" demoDirs true (by decide) (by decide)

/-- Witness for the epoch-end mean theorem: two steps reporting x with
values 1 and 3 yield a single report of x with mean 2. -/
theorem epoch_end_reports_mean_witness :
    ∃ logged,
      training_epoch_end [[("x", (1 : ℚ))], [("x", 3)]] = Except.ok logged ∧
      validation_epoch_end [[("x", (1 : ℚ))], [("x", 3)]] = Except.ok logged ∧
      List.lookup "x" logged =
        some (([(1 : ℚ), 3].sum) /
          ((([[("x", (1 : ℚ))], [("x", 3)]] : List StepOutput).length : ℚ))) ∧
      (logged.map Prod.fst).count "x" = 1 :=
  epoch_end_reports_mean [("x", 1)] [[("x", 3)]] "x" [1, 3] (by decide) (by decide)
    (by decide) (List.Forall₂.cons rfl (List.Forall₂.cons rfl List.Forall₂.nil))

/-! ## Helper-parameter and analyzer theorems -/

/-- C10: set_params treats every falsy argument as absent: verbosity 0,
timestamped False and data_dir empty each leave the corresponding
global unchanged, and no call can move VERBOSITY to 0, TIMESTAMPED to
a value other than a previous one or True, or DATA_DIR to empty. -/
theorem set_params_falsy_ignored (p : HelperParams) (v : Option Int)
    (t : Option Bool) (d : Option String) :
    (set_params p (some 0) t d).VERBOSITY = p.VERBOSITY ∧
    (set_params p v (some false) d).TIMESTAMPED = p.TIMESTAMPED ∧
    (set_params p v t (some "")).DATA_DIR = p.DATA_DIR ∧
    ((set_params p v t d).VERBOSITY = p.VERBOSITY ∨ (set_params p v t d).VERBOSITY ≠ 0) ∧
    ((set_params p v t d).TIMESTAMPED = p.TIMESTAMPED ∨ (set_params p v t d).TIMESTAMPED = true) ∧
    ((set_params p v t d).DATA_DIR = p.DATA_DIR ∨ (set_params p v t d).DATA_DIR ≠ "") := by
  refine ⟨?_, ?_, ?_, ?_, ?_, ?_⟩
  · simp [set_params, pyTruthyInt]
  · simp [set_params, pyTruthyBool]
  · simp [set_params, pyTruthyStr]
  · rcases v with _ | n
    · exact Or.inl (by simp [set_params, pyTruthyInt])
    · by_cases hn : n = 0
      · exact Or.inl (by simp [set_params, pyTruthyInt, hn])
      · exact Or.inr (by simp [set_params, pyTruthyInt, hn])
  · rcases t with _ | b
    · exact Or.inl (by simp [set_params, pyTruthyBool])
    · cases b
      · exact Or.inl (by simp [set_params, pyTruthyBool])
      · exact Or.inr (by simp [set_params, pyTruthyBool])
  · rcases d with _ | s
    · exact Or.inl (by simp [set_params, pyTruthyStr])
    · by_cases hs : s = ""
      · exact Or.inl (by simp [set_params, pyTruthyStr, hs])
      · exact Or.inr (by simp [set_params, pyTruthyStr, hs])

/-- Results collection of the scenario in the claim: dice values
0.1, 0.9 and 0.5 with ids A, B and C, all other metrics zero. -/
def scenarioResults : List TestRecord :=
  [{ id := "A", test_dice_metric := 1/10, test_dice_et := 0, test_dice_tc := 0,
     test_dice_wt := 0, test_hd_metric := 0, test_hd_et := 0, test_hd_tc := 0,
     test_hd_wt := 0 },
   { id := "B", test_dice_metric := 9/10, test_dice_et := 0, test_dice_tc := 0,
     test_dice_wt := 0, test_hd_metric := 0, test_hd_et := 0, test_hd_tc := 0,
     test_hd_wt := 0 },
   { id := "C", test_dice_metric := 5/10, test_dice_et := 0, test_dice_tc := 0,
     test_dice_wt := 0, test_hd_metric := 0, test_hd_et := 0, test_hd_tc := 0,
     test_hd_wt := 0 }]

/-- C1: on the scenario collection with dice values 0.1, 0.9, 0.5 and
ids A, B, C, the best-id scan of analyze.py reports C, not the id B of
the maximum, because the loop never assigns the running best value, so
every record whose dice exceeds the initial 0 overwrites the id; the
mean dice is reported as one half, as the claim states. -/
theorem best_scan_reports_last_positive :
    (bestScan scenarioResults).2 = some "C" ∧
    (analyzeMeans scenarioResults).mean_dice = 1/2 := by
  constructor
  · norm_num [bestScan, scenarioResults, List.foldl]
  · norm_num [analyzeMeans, scenarioResults, listMean]
